import Mathlib

/-
Shallow embedding of the read-path resolution and caching engine of
src/TStat.py (class TStat, in particular the method TStat._get, the class
CacheEntry, and the public read accessors).

Modelling conventions:
- JSON documents decoded by json.loads are modelled by the inductive `Json`
  (numbers restricted to integers; every payload occurring in the claims is
  integral).
- Python dicts keyed by strings (the response cache, JSON objects, the API
  registry) are modelled as association lists with first-match lookup and
  overwrite-or-append update, preserving dict semantics (at most one binding
  per key when the input has that property).
- Wall-clock time is an explicit natural-number parameter `now`; a cache
  entry stores its creation time and its age is `now - time`, mirroring
  CacheEntry.age (datetime.now() - self.time).  The source recomputes
  datetime.now() at each age() call within a single _get call; the model
  uses one fixed `now` per call, as the spec does.
- Exceptions that escape _get (KeyError and TypeError raised by the
  subscript `response[key]`) are modelled by the error value
  `TErr.pathNotFound` of an Except result.  The silent `return` (Python
  None) on an unknown key is modelled as `Except.ok none`.
- Live HTTP GETs followed by json.loads are modelled by an oracle
  `fetch : String -> Json` giving the decoded body for each location; the
  list of locations fetched live during a call is returned so that the
  number of live fetches is observable.
-/

namespace RT

/-- A decoded JSON document as produced by json.loads. -/
inductive Json where
  | null
  | bool (b : Bool)
  | num (n : Int)
  | str (s : String)
  | arr (elems : List Json)
  | obj (fields : List (String × Json))

/-- Errors escaping a call of TStat._get.
`pathNotFound` models the KeyError / TypeError raised by the subscript
`response[key]` (missing key on a dict, or subscripting a non-dict).
`emptyGetters` models the IndexError / NameError the Python code would raise
when an API entry has an empty getter list; the spec guarantees getter lists
are non-empty, so this branch is unreachable in practice. -/
inductive TErr where
  | pathNotFound
  | emptyGetters

/-- Python dict read `d[k]` / `d.has_key(k)` on a string-keyed dict modelled
as an association list: first binding wins. -/
def assocFind {α : Type} : List (String × α) → String → Option α
  | [], _ => none
  | (k2, v) :: rest, k => if k2 = k then some v else assocFind rest k

/-- Python dict write `d[k] = v`: overwrite the binding if present,
otherwise append a new one. -/
def assocPut {α : Type} : List (String × α) → String → α → List (String × α)
  | [], k, v => [(k, v)]
  | (k2, v2) :: rest, k, v =>
    if k2 = k then (k, v) :: rest else (k2, v2) :: assocPut rest k v

/-- Python `s.split("/")` at the level of character lists. -/
def splitChars : List Char → List (List Char)
  | [] => [[]]
  | c :: cs =>
    if c = '/' then [] :: splitChars cs
    else
      match splitChars cs with
      | [] => [[c]]
      | w :: ws => (c :: w) :: ws

/-- Python `s.split("/")` (source line 149: `getter[1].split("/")`). -/
def splitSlash (s : String) : List String :=
  (splitChars s.data).map (fun w => String.mk w)

/-- Python subscript `response[key]`: succeeds when `response` is a dict
containing `key`; a missing key raises KeyError and a non-dict raises
TypeError, both modelled as `TErr.pathNotFound`. -/
def indexJson : Json → String → Except TErr Json
  | .obj fields, k =>
    match assocFind fields k with
    | some v => .ok v
    | none => .error .pathNotFound
  | _, _ => .error .pathNotFound

/-- The extraction loop of source lines 149-150:
`for key in keys: response = response[key]`. -/
def descend : Json → List String → Except TErr Json
  | r, [] => .ok r
  | r, k :: ks =>
    match indexJson r k with
    | .error e => .error e
    | .ok r2 => descend r2 ks

/-- One candidate getter of an API entry: the tuple
`(location, jsonKey)` iterated at source line 113. -/
structure Getter where
  location : String
  jsonKey : String

/-- Modelled from the spec: the module API.py (imported by `from API import
*` at source line 53) is not part of src/; per the spec an
EndpointDescriptor carries an ordered non-empty list of candidate getters
and an optional value map (absent means no remapping).  Value-map keys are
scalars (they are Python dict keys). -/
structure APIEntry where
  getters : List Getter
  valueMap : Option (List (Json × Json))

/-- Source class CacheEntry (lines 55-62): location, decoded data, and the
time of retrieval. -/
structure CacheEntry where
  location : String
  data : Json
  time : Nat

/-- CacheEntry.age (line 61-62): datetime.now() - self.time, with the
current time passed explicitly. -/
def entryAge (now : Nat) (ce : CacheEntry) : Nat :=
  now - ce.time

/-- The age of a candidate winner paired with its cache entry. -/
def candAge (now : Nat) (c : Getter × CacheEntry) : Nat :=
  entryAge now c.2

/-- One update step of the `newest` accumulator in source lines 121-127:
the first valid entry is adopted via the caught TypeError (`newest` is
None), and a later valid entry replaces the incumbent exactly when its age
is strictly smaller. -/
def selStep (now : Nat) (acc : Option (Getter × CacheEntry))
    (c : Getter × CacheEntry) : Option (Getter × CacheEntry) :=
  match acc with
  | none => some c
  | some w => if candAge now c < candAge now w then some c else some w

/-- The cache-probing loop of source lines 112-129: walk the candidate
getters in order, skip locations that are uncached or whose entry has
age >= cacheExpiry, and keep the valid candidate of strictly smallest age
(ties keep the earlier candidate).  The accumulator carries the winning
entry itself; the source re-reads it as `self.cache[newest[0]]`, which is
the same entry because the loop never mutates the cache. -/
def selectNewest (now expiry : Nat) (cache : List (String × CacheEntry)) :
    List Getter → Option (Getter × CacheEntry) → Option (Getter × CacheEntry)
  | [], acc => acc
  | g :: gs, acc =>
    match assocFind cache g.location with
    | none => selectNewest now expiry cache gs acc
    | some ce =>
      if entryAge now ce < expiry then
        selectNewest now expiry cache gs (selStep now acc (g, ce))
      else
        selectNewest now expiry cache gs acc

/-- The candidates the loop of lines 112-129 treats as valid: those whose
location is cached with age strictly below the expiry, in candidate
order. -/
def validCandidates (now expiry : Nat) (cache : List (String × CacheEntry))
    (gs : List Getter) : List (Getter × CacheEntry) :=
  gs.filterMap (fun g =>
    match assocFind cache g.location with
    | none => none
    | some ce => if entryAge now ce < expiry then some (g, ce) else none)

/-- Python `==` as used by the valueMap dict lookup at line 161-162.
Value-map keys are scalars (unhashable lists and dicts cannot be dict
keys, and looking up an unhashable response raises TypeError, swallowed by
the bare `except` at line 163), so container responses never match. -/
def jsonKeyEq : Json → Json → Bool
  | .null, .null => true
  | .bool a, .bool b => a = b
  | .num a, .num b => a = b
  | .str a, .str b => a = b
  | _, _ => false

/-- Python dict lookup `valueMap[response]`, returning none when the key is
absent (the KeyError swallowed by line 163) or unhashable. -/
def lookupMap : List (Json × Json) → Json → Option Json
  | [], _ => none
  | (k, v) :: rest, r => if jsonKeyEq k r then some v else lookupMap rest r

/-- The remapping stage, source lines 154-165: return the response
unchanged when raw was requested or there is no valueMap; otherwise look
the response up in valueMap and fall back to the raw response when the
lookup fails. -/
def remap (vm : Option (List (Json × Json))) (raw : Bool) (r : Json) : Json :=
  if raw then r
  else
    match vm with
    | none => r
    | some m =>
      match lookupMap m r with
      | some v => v
      | none => r

/-- Result of the raw-independent part of a TStat._get call: the extracted
value paired with the valueMap of the API entry (or ok none for the silent
return on an unknown key), the cache after the call, and the list of
locations fetched live. -/
structure CoreOutcome where
  extracted : Except TErr (Option (Json × Option (List (Json × Json))))
  cache : List (String × CacheEntry)
  requested : List String

/-- Everything TStat._get (source lines 95-150) does before the remapping
stage; the `raw` flag is only read at line 154, so this part does not
depend on it.

Branches, following the source:
- unknown key (lines 102-105): silent `return`, modelled as ok none;
- cache hit (lines 132-135 then 149-150): the response is first the single
  subscript `cache[newest[0]].data[newest[1]]` with the WHOLE jsonKey of
  the winner, and is then further descended along the split jsonKey of the
  loop variable `getter`, which after the loop of line 113 is the LAST
  candidate getter (the live-fetch branch reassigns it, the cache branch
  does not);
- live fetch (lines 137-145 then 149-150): GET the first candidate
  location, store the decoded payload in the cache under that location,
  and descend the split jsonKey of the first candidate. -/
def getCore (api : List (String × APIEntry)) (cache : List (String × CacheEntry))
    (expiry now : Nat) (fetch : String → Json) (key : String) : CoreOutcome :=
  match assocFind api key with
  | none => ⟨.ok none, cache, []⟩
  | some entry =>
    match selectNewest now expiry cache entry.getters none with
    | some w =>
      match entry.getters.getLast? with
      | none => ⟨.error .emptyGetters, cache, []⟩
      | some lastG =>
        match indexJson w.2.data w.1.jsonKey with
        | .error e => ⟨.error e, cache, []⟩
        | .ok r0 =>
          match descend r0 (splitSlash lastG.jsonKey) with
          | .error e => ⟨.error e, cache, []⟩
          | .ok r => ⟨.ok (some (r, entry.valueMap)), cache, []⟩
    | none =>
      match entry.getters with
      | [] => ⟨.error .emptyGetters, cache, []⟩
      | g0 :: _ =>
        let payload := fetch g0.location
        let cache2 := assocPut cache g0.location ⟨g0.location, payload, now⟩
        match descend payload (splitSlash g0.jsonKey) with
        | .error e => ⟨.error e, cache2, [g0.location]⟩
        | .ok r => ⟨.ok (some (r, entry.valueMap)), cache2, [g0.location]⟩

/-- Result of a full TStat._get call. -/
structure GetOutcome where
  result : Except TErr (Option Json)
  cache : List (String × CacheEntry)
  requested : List String

/-- TStat._get (source lines 95-165): the raw-independent core followed by
the remapping stage of lines 154-165. -/
def TStat_get (api : List (String × APIEntry)) (cache : List (String × CacheEntry))
    (expiry now : Nat) (fetch : String → Json) (key : String) (raw : Bool) :
    GetOutcome :=
  let c := getCore api cache expiry now fetch key
  ⟨match c.extracted with
    | .error e => .error e
    | .ok none => .ok none
    | .ok (some (r, vm)) => .ok (some (remap vm raw r)), c.cache, c.requested⟩

/-- TStat.getFanMode (lines 175-177): forwards the raw flag. -/
def getFanMode (api : List (String × APIEntry)) (cache : List (String × CacheEntry))
    (expiry now : Nat) (fetch : String → Json) (raw : Bool) : GetOutcome :=
  TStat_get api cache expiry now fetch "fmode" raw

/-- TStat.getTstatMode (lines 171-173): forwards the raw flag. -/
def getTstatMode (api : List (String × APIEntry)) (cache : List (String × CacheEntry))
    (expiry now : Nat) (fetch : String → Json) (raw : Bool) : GetOutcome :=
  TStat_get api cache expiry now fetch "tmode" raw

/-- TStat.getHeatUsageToday (lines 216-218): the accessor accepts a raw
flag but the source calls `self._get('today_heat_runtime')` WITHOUT
forwarding it, so _get always runs with its default raw=False. -/
def getHeatUsageToday (api : List (String × APIEntry)) (cache : List (String × CacheEntry))
    (expiry now : Nat) (fetch : String → Json) (raw : Bool) : GetOutcome :=
  TStat_get api cache expiry now fetch "today_heat_runtime" false

/-- TStat.getHeatUsageYesterday (lines 220-222): same dropped raw flag. -/
def getHeatUsageYesterday (api : List (String × APIEntry)) (cache : List (String × CacheEntry))
    (expiry now : Nat) (fetch : String → Json) (raw : Bool) : GetOutcome :=
  TStat_get api cache expiry now fetch "yesterday_heat_runtime" false

/-- TStat.getCoolUsageToday (lines 224-226): same dropped raw flag. -/
def getCoolUsageToday (api : List (String × APIEntry)) (cache : List (String × CacheEntry))
    (expiry now : Nat) (fetch : String → Json) (raw : Bool) : GetOutcome :=
  TStat_get api cache expiry now fetch "today_cool_runtime" false

/-- TStat.getCoolUsageYesterday (lines 228-230): same dropped raw flag. -/
def getCoolUsageYesterday (api : List (String × APIEntry)) (cache : List (String × CacheEntry))
    (expiry now : Nat) (fetch : String → Json) (raw : Bool) : GetOutcome :=
  TStat_get api cache expiry now fetch "yesterday_cool_runtime" false

/-! Concrete fixtures used by the scenario theorems. -/

/-- The decoded body of a GET of /tstat in the sharing scenario:
fields fmode = 1 and tmode = 2. -/
def tstatPayload : Json := .obj [("fmode", .num 1), ("tmode", .num 2)]

/-- Getter (/tstat, fmode). -/
def fmodeGetter : Getter := ⟨"/tstat", "fmode"⟩

/-- Getter (/tstat, tmode). -/
def tmodeGetter : Getter := ⟨"/tstat", "tmode"⟩

/-- Value map sending 0 to off and 1 to auto. -/
def fmodeVM : List (Json × Json) := [(.num 0, .str "off"), (.num 1, .str "auto")]

/-- Registry with fmode and tmode both served by the /tstat endpoint. -/
def sharedApi : List (String × APIEntry) :=
  [("fmode", ⟨[fmodeGetter], some fmodeVM⟩), ("tmode", ⟨[tmodeGetter], none⟩)]

/-- Device oracle answering every GET with tstatPayload. -/
def sharedFetch : String → Json := fun _ => tstatPayload

/-- A cache entry for /tstat holding a payload with field fmode = 1,
fetched at time 0. -/
def c1Entry : CacheEntry := ⟨"/tstat", .obj [("fmode", .num 1)], 0⟩

/-- A cache containing only c1Entry. -/
def c1Cache : List (String × CacheEntry) := [("/tstat", c1Entry)]

/-- Getter (/tstat/datalog, today/heat_runtime). -/
def usageGetter : Getter := ⟨"/tstat/datalog", "today/heat_runtime"⟩

/-- API entry for the daily heat runtime, with a value map sending 42 to
the marker string mapped42. -/
def usageEntry : APIEntry := ⟨[usageGetter], some [(.num 42, .str "mapped42")]⟩

/-- Registry containing only the daily heat runtime key. -/
def usageApi : List (String × APIEntry) := [("today_heat_runtime", usageEntry)]

/-- Datalog payload: field today is an object whose field heat_runtime
is 42. -/
def runtimePayload : Json := .obj [("today", .obj [("heat_runtime", .num 42)])]

/-- Device oracle answering every GET with runtimePayload. -/
def usageFetch : String → Json := fun _ => runtimePayload

/-- Datalog payload whose today object is empty. -/
def emptyToday : Json := .obj [("today", .obj [])]

/-- Device oracle answering every GET with emptyToday. -/
def emptyFetch : String → Json := fun _ => emptyToday

/-- Device oracle answering every GET with a payload whose fmode field is
7, a code absent from fmodeVM. -/
def missFetch : String → Json := fun _ => .obj [("fmode", .num 7)]

/-- A cache with an entry for /a of age 5 and an entry for /b of age 1 at
time 10. -/
def selCacheW : List (String × CacheEntry) :=
  [("/a", ⟨"/a", .null, 5⟩), ("/b", ⟨"/b", .null, 9⟩)]

/-- Two candidate getters, one per cached endpoint above. -/
def selGettersW : List Getter := [⟨"/a", "x"⟩, ⟨"/b", "y"⟩]

/-! Helper lemmas. -/

theorem assocFind_assocPut_self {α : Type} (l : List (String × α)) (k : String) (v : α) :
    assocFind (assocPut l k v) k = some v := by
  induction l with
  | nil => simp [assocPut, assocFind]
  | cons p rest ih =>
    by_cases h : p.1 = k
    · simp [assocPut, assocFind, h]
    · simp [assocPut, assocFind, h, ih]

theorem assocFind_assocPut_other {α : Type} (l : List (String × α)) (k k2 : String)
    (v : α) (hne : k2 ≠ k) : assocFind (assocPut l k v) k2 = assocFind l k2 := by
  induction l with
  | nil => simp [assocPut, assocFind, Ne.symm hne]
  | cons p rest ih =>
    by_cases h : p.1 = k
    · simp [assocPut, assocFind, h, Ne.symm hne]
    · by_cases h2 : p.1 = k2 <;> simp [assocPut, assocFind, h, h2, hne, ih]

theorem selectNewest_eq_foldl (now expiry : Nat) (cache : List (String × CacheEntry))
    (gs : List Getter) :
    ∀ acc, selectNewest now expiry cache gs acc
      = (validCandidates now expiry cache gs).foldl (selStep now) acc := by
  induction gs with
  | nil => intro acc; simp [selectNewest, validCandidates]
  | cons g gs ih =>
    intro acc
    cases hfind : assocFind cache g.location with
    | none =>
      simp [selectNewest, validCandidates, List.filterMap_cons, hfind, ih]
    | some ce =>
      by_cases hage : entryAge now ce < expiry
      · simp [selectNewest, validCandidates, List.filterMap_cons, hfind, hage, ih]
      · simp [selectNewest, validCandidates, List.filterMap_cons, hfind, hage, ih]

theorem foldl_selStep_some (now : Nat) (L : List (Getter × CacheEntry)) :
    ∀ (w r : Getter × CacheEntry),
      L.foldl (selStep now) (some w) = some r →
      candAge now r ≤ candAge now w
      ∧ (∀ q ∈ L, candAge now r ≤ candAge now q)
      ∧ (r = w ∨ ∃ i, L.get? i = some r ∧ candAge now r < candAge now w
          ∧ ∀ j q, j < i → L.get? j = some q → candAge now r < candAge now q) := by
  induction L with
  | nil =>
    intro w r h
    have hwr : w = r := by simpa using h
    subst hwr
    exact ⟨le_refl _, by simp, Or.inl rfl⟩
  | cons c cs ih =>
    intro w r h
    rw [List.foldl_cons] at h
    by_cases hc : candAge now c < candAge now w
    · rw [show selStep now (some w) c = some c by simp [selStep, hc]] at h
      obtain ⟨h1, h2, h3⟩ := ih c r h
      refine ⟨le_trans h1 (le_of_lt hc), ?_, ?_⟩
      · intro q hq
        rcases List.mem_cons.mp hq with hq | hq
        · rw [hq]; exact le_trans h1 (le_refl _)
        · exact h2 q hq
      · right
        rcases h3 with hrc | ⟨i, hi, hlt, hstrict⟩
        · refine ⟨0, by simp [hrc], ?_, fun j q hj _ => absurd hj (Nat.not_lt_zero j)⟩
          rw [hrc]; exact hc
        · refine ⟨i + 1, by simpa using hi, lt_trans hlt hc, ?_⟩
          intro j q hj hjq
          cases j with
          | zero =>
            have hcq : c = q := by simpa using hjq
            exact hcq ▸ hlt
          | succ j =>
            exact hstrict j q (Nat.lt_of_succ_lt_succ hj) (by simpa using hjq)
    · rw [show selStep now (some w) c = some w by simp [selStep, hc]] at h
      obtain ⟨h1, h2, h3⟩ := ih w r h
      have hwc : candAge now w ≤ candAge now c := Nat.le_of_not_lt hc
      refine ⟨h1, ?_, ?_⟩
      · intro q hq
        rcases List.mem_cons.mp hq with hq | hq
        · rw [hq]; exact le_trans h1 hwc
        · exact h2 q hq
      · rcases h3 with hrw | ⟨i, hi, hlt, hstrict⟩
        · exact Or.inl hrw
        · refine Or.inr ⟨i + 1, by simpa using hi, hlt, ?_⟩
          intro j q hj hjq
          cases j with
          | zero =>
            have hcq : c = q := by simpa using hjq
            exact hcq ▸ lt_of_lt_of_le hlt hwc
          | succ j =>
            exact hstrict j q (Nat.lt_of_succ_lt_succ hj) (by simpa using hjq)

theorem validCandidates_expiry_zero (now : Nat) (cache : List (String × CacheEntry))
    (gs : List Getter) : validCandidates now 0 cache gs = [] := by
  rw [validCandidates, List.filterMap_eq_nil_iff]
  intro g hg
  cases hfind : assocFind cache g.location with
  | none => rfl
  | some ce => simp

/-! Claim theorems. -/

/-- C1: the claim says a cache hit extracts the value from the winning
getter payload by one descent of the winning getter jsonPath.  The code
instead first subscripts the cached payload with the whole jsonPath of the
winner (line 135) and then additionally descends the split jsonPath of the
stale loop variable `getter`, which is the last candidate (lines 149-150).
At a registered key fmode with single getter (/tstat, fmode) and a valid
cached payload with field fmode = 1, the call therefore raises a TypeError
(modelled as pathNotFound) instead of returning 1, and it does so without
any live fetch. -/
theorem c1_cache_hit_double_extraction :
    (TStat_get sharedApi c1Cache 5 0 sharedFetch "fmode" false).result
      = .error .pathNotFound
    ∧ (TStat_get sharedApi c1Cache 5 0 sharedFetch "fmode" false).requested = [] :=
  ⟨rfl, rfl⟩

/-- C2: in the single-endpoint sharing scenario (fmode and tmode both
served by /tstat, ttl 5), the first call for fmode live-fetches /tstat
once and returns the mapped value auto; the second call for tmode at age
2 < 5 indeed performs zero additional live fetches, but instead of
returning 2 it fails with the double-extraction TypeError of the cache-hit
branch (modelled as pathNotFound). -/
theorem c2_shared_endpoint_second_call_fails :
    (TStat_get sharedApi [] 5 0 sharedFetch "fmode" false).result
      = .ok (some (.str "auto"))
    ∧ (TStat_get sharedApi [] 5 0 sharedFetch "fmode" false).requested = ["/tstat"]
    ∧ (TStat_get sharedApi (TStat_get sharedApi [] 5 0 sharedFetch "fmode" false).cache
        5 2 sharedFetch "tmode" false).requested = []
    ∧ (TStat_get sharedApi (TStat_get sharedApi [] 5 0 sharedFetch "fmode" false).cache
        5 2 sharedFetch "tmode" false).result = .error .pathNotFound :=
  ⟨rfl, rfl, rfl, rfl⟩

/-- C3: among the candidate getters whose cache entries are present and
valid (the list validCandidates, in candidate order), the winner selected
by the loop of source lines 112-129 is the valid candidate of smallest
age, and every valid candidate strictly earlier in the order has a
strictly larger age, so equal ages are won by the earlier candidate. -/
theorem c3_winner_first_minimal_age (now expiry : Nat)
    (cache : List (String × CacheEntry)) (gs : List Getter)
    (r : Getter × CacheEntry)
    (h : selectNewest now expiry cache gs none = some r) :
    ∃ i, (validCandidates now expiry cache gs).get? i = some r
      ∧ (∀ q ∈ validCandidates now expiry cache gs, candAge now r ≤ candAge now q)
      ∧ ∀ j q, j < i → (validCandidates now expiry cache gs).get? j = some q →
          candAge now r < candAge now q := by
  rw [selectNewest_eq_foldl] at h
  cases hL : validCandidates now expiry cache gs with
  | nil => rw [hL] at h; simp [List.foldl] at h
  | cons c cs =>
    rw [hL, List.foldl_cons, show selStep now none c = some c from rfl] at h
    obtain ⟨h1, h2, h3⟩ := foldl_selStep_some now cs c r h
    rcases h3 with hrc | ⟨i, hi, hlt, hstrict⟩
    · refine ⟨0, by simp [hrc], ?_, fun j q hj _ => absurd hj (Nat.not_lt_zero j)⟩
      intro q hq
      rcases List.mem_cons.mp hq with hq | hq
      · rw [hq, hrc]
      · exact h2 q hq
    · refine ⟨i + 1, by simpa using hi, ?_, ?_⟩
      · intro q hq
        rcases List.mem_cons.mp hq with hq | hq
        · rw [hq]; exact le_of_lt hlt
        · exact h2 q hq
      · intro j q hj hjq
        cases j with
        | zero =>
          have hcq : c = q := by simpa using hjq
          exact hcq ▸ hlt
        | succ j =>
          exact hstrict j q (Nat.lt_of_succ_lt_succ hj) (by simpa using hjq)

/-- Witness for C3: with entries for /a (age 5) and /b (age 1) both valid,
the selection picks the /b candidate, the younger one. -/
theorem c3_witness :
    selectNewest 10 100 selCacheW selGettersW none
      = some (⟨"/b", "y"⟩, ⟨"/b", .null, 9⟩)
    ∧ ∃ i, (validCandidates 10 100 selCacheW selGettersW).get? i
          = some (⟨"/b", "y"⟩, ⟨"/b", .null, 9⟩)
        ∧ (∀ q ∈ validCandidates 10 100 selCacheW selGettersW,
            candAge 10 ((⟨"/b", "y"⟩, ⟨"/b", .null, 9⟩) : Getter × CacheEntry)
              ≤ candAge 10 q)
        ∧ ∀ j q, j < i →
            (validCandidates 10 100 selCacheW selGettersW).get? j = some q →
            candAge 10 ((⟨"/b", "y"⟩, ⟨"/b", .null, 9⟩) : Getter × CacheEntry)
              < candAge 10 q :=
  ⟨rfl, c3_winner_first_minimal_age 10 100 selCacheW selGettersW _ rfl⟩

/-- C5: validity of a cache entry is the strict comparison age < ttl of
source line 119: every candidate the loop treats as valid has age strictly
below the expiry (so age = ttl is expired), any present candidate with age
strictly below the expiry is treated as valid, and with ttl 0 every call
on a registered key performs a live fetch of the first getter location
regardless of the cache contents. -/
theorem c5_strict_ttl_validity :
    (∀ (now expiry : Nat) (cache : List (String × CacheEntry)) (gs : List Getter)
        (g : Getter) (ce : CacheEntry),
        (g, ce) ∈ validCandidates now expiry cache gs → entryAge now ce < expiry)
    ∧ (∀ (now expiry : Nat) (cache : List (String × CacheEntry)) (gs : List Getter)
        (g : Getter) (ce : CacheEntry),
        g ∈ gs → assocFind cache g.location = some ce → entryAge now ce < expiry →
        (g, ce) ∈ validCandidates now expiry cache gs)
    ∧ (∀ (api : List (String × APIEntry)) (cache : List (String × CacheEntry))
        (now : Nat) (fetch : String → Json) (key : String) (raw : Bool)
        (entry : APIEntry) (g0 : Getter) (rest : List Getter),
        assocFind api key = some entry → entry.getters = g0 :: rest →
        (TStat_get api cache 0 now fetch key raw).requested = [g0.location]) := by
  refine ⟨?_, ?_, ?_⟩
  · intro now expiry cache gs g ce h
    obtain ⟨g2, hg2, hf⟩ := List.mem_filterMap.mp h
    cases hfind : assocFind cache g2.location with
    | none => simp [hfind] at hf
    | some ce2 =>
      by_cases hage : entryAge now ce2 < expiry
      · simp only [hfind, if_pos hage, Option.some.injEq, Prod.mk.injEq] at hf
        exact hf.2 ▸ hage
      · simp [hfind, hage] at hf
  · intro now expiry cache gs g ce hmem hfind hage
    exact List.mem_filterMap.mpr ⟨g, hmem, by simp [hfind, hage]⟩
  · intro api cache now fetch key raw entry g0 rest hapi hget
    have hsel : selectNewest now 0 cache (g0 :: rest) none = none := by
      rw [selectNewest_eq_foldl, validCandidates_expiry_zero]
      rfl
    cases hdesc : descend (fetch g0.location) (splitSlash g0.jsonKey) with
    | error e => simp [TStat_get, getCore, hapi, hget, hsel, hdesc]
    | ok v => simp [TStat_get, getCore, hapi, hget, hsel, hdesc]

/-- Witness for C5: a valid member has age below the ttl, a fresh entry is
a valid candidate, and with ttl 0 a call on the registered daily runtime
key live-fetches the datalog endpoint even though its cache holds an entry
fetched at the very same instant. -/
theorem c5_witness :
    entryAge 10 (⟨"/a", .null, 5⟩ : CacheEntry) < 100
    ∧ ((⟨"/a", "x"⟩, ⟨"/a", .null, 5⟩) : Getter × CacheEntry)
        ∈ validCandidates 10 100 selCacheW selGettersW
    ∧ (TStat_get usageApi c1Cache 0 0 usageFetch "today_heat_runtime" false).requested
        = ["/tstat/datalog"] := by
  refine ⟨?_, ?_, ?_⟩
  · exact c5_strict_ttl_validity.1 10 100 selCacheW selGettersW
      ⟨"/a", "x"⟩ ⟨"/a", .null, 5⟩ (by exact List.Mem.head _)
  · exact c5_strict_ttl_validity.2.1 10 100 selCacheW selGettersW
      ⟨"/a", "x"⟩ ⟨"/a", .null, 5⟩ (List.Mem.head _) rfl (by decide)
  · exact c5_strict_ttl_validity.2.2 usageApi c1Cache 0 usageFetch
      "today_heat_runtime" false usageEntry usageGetter [] rfl rfl

/-- C6: the claim says an unknown logical key fails with a distinct
UnknownKey error surfaced to the caller.  The code (lines 102-105) instead
logs and silently returns None: for every key absent from the registry the
call returns the non-error value ok none, leaves the cache unchanged and
fetches nothing. -/
theorem c6_unknown_key_returns_silent_none
    (api : List (String × APIEntry)) (cache : List (String × CacheEntry))
    (expiry now : Nat) (fetch : String → Json) (key : String) (raw : Bool)
    (h : assocFind api key = none) :
    TStat_get api cache expiry now fetch key raw = ⟨.ok none, cache, []⟩ := by
  simp [TStat_get, getCore, h]

/-- Witness for C6 at the concrete unregistered key bogus. -/
theorem c6_witness :
    assocFind sharedApi "bogus" = none
    ∧ TStat_get sharedApi c1Cache 5 0 sharedFetch "bogus" false
        = ⟨.ok none, c1Cache, []⟩ :=
  ⟨rfl, c6_unknown_key_returns_silent_none sharedApi c1Cache 5 0 sharedFetch
    "bogus" false rfl⟩

/-- C9: the claim says every read accessor, including the daily and
yesterday usage accessors, honors its raw flag.  getHeatUsageToday
(source line 216-218) accepts the flag but calls _get without forwarding
it, so _get runs with its default raw=False: with a registry whose
today_heat_runtime entry maps 42 to mapped42, the call with raw=true
returns the remapped string instead of the raw 42, and in general the
result never depends on the flag. -/
theorem c9_usage_accessor_ignores_raw :
    (getHeatUsageToday usageApi [] 5 0 usageFetch true).result
      = .ok (some (.str "mapped42"))
    ∧ ∀ (api : List (String × APIEntry)) (cache : List (String × CacheEntry))
        (expiry now : Nat) (fetch : String → Json) (r1 r2 : Bool),
        getHeatUsageToday api cache expiry now fetch r1
          = getHeatUsageToday api cache expiry now fetch r2 :=
  ⟨rfl, fun _ _ _ _ _ _ _ => rfl⟩

/-- C4: when no candidate has a valid cache entry, the call performs
exactly one live fetch, of the first candidate getter location; the
decoded payload is stored in the cache under that location, overwriting
any prior entry there and leaving every other location untouched; and the
extraction descends the split jsonPath of that same first getter. -/
theorem c4_live_fetch_fallback
    (api : List (String × APIEntry)) (cache : List (String × CacheEntry))
    (expiry now : Nat) (fetch : String → Json) (key : String) (raw : Bool)
    (entry : APIEntry) (g0 : Getter) (rest : List Getter)
    (hapi : assocFind api key = some entry)
    (hget : entry.getters = g0 :: rest)
    (hsel : selectNewest now expiry cache entry.getters none = none) :
    (TStat_get api cache expiry now fetch key raw).requested = [g0.location]
    ∧ (TStat_get api cache expiry now fetch key raw).cache
        = assocPut cache g0.location ⟨g0.location, fetch g0.location, now⟩
    ∧ assocFind (TStat_get api cache expiry now fetch key raw).cache g0.location
        = some ⟨g0.location, fetch g0.location, now⟩
    ∧ (∀ loc, loc ≠ g0.location →
        assocFind (TStat_get api cache expiry now fetch key raw).cache loc
          = assocFind cache loc)
    ∧ (TStat_get api cache expiry now fetch key raw).result
        = (match descend (fetch g0.location) (splitSlash g0.jsonKey) with
            | .error e => .error e
            | .ok v => .ok (some (remap entry.valueMap raw v))) := by
  rw [hget] at hsel
  have hcache : (TStat_get api cache expiry now fetch key raw).cache
      = assocPut cache g0.location ⟨g0.location, fetch g0.location, now⟩ := by
    cases hdesc : descend (fetch g0.location) (splitSlash g0.jsonKey) with
    | error e => simp [TStat_get, getCore, hapi, hget, hsel, hdesc]
    | ok v => simp [TStat_get, getCore, hapi, hget, hsel, hdesc]
  refine ⟨?_, hcache, ?_, ?_, ?_⟩
  · cases hdesc : descend (fetch g0.location) (splitSlash g0.jsonKey) with
    | error e => simp [TStat_get, getCore, hapi, hget, hsel, hdesc]
    | ok v => simp [TStat_get, getCore, hapi, hget, hsel, hdesc]
  · rw [hcache]
    exact assocFind_assocPut_self cache g0.location _
  · intro loc hne
    rw [hcache]
    exact assocFind_assocPut_other cache g0.location loc _ hne
  · cases hdesc : descend (fetch g0.location) (splitSlash g0.jsonKey) with
    | error e => simp [TStat_get, getCore, hapi, hget, hsel, hdesc]
    | ok v => simp [TStat_get, getCore, hapi, hget, hsel, hdesc]

/-- Witness for C4: with an empty cache, the daily heat runtime call
fetches /tstat/datalog once and stores the payload there. -/
theorem c4_witness :
    assocFind usageApi "today_heat_runtime" = some usageEntry
    ∧ usageEntry.getters = usageGetter :: []
    ∧ selectNewest 0 5 [] usageEntry.getters none = none
    ∧ (TStat_get usageApi [] 5 0 usageFetch "today_heat_runtime" false).requested
        = ["/tstat/datalog"]
    ∧ (TStat_get usageApi [] 5 0 usageFetch "today_heat_runtime" false).cache
        = assocPut [] "/tstat/datalog"
            ⟨"/tstat/datalog", usageFetch "/tstat/datalog", 0⟩ := by
  have h := c4_live_fetch_fallback usageApi [] 5 0 usageFetch "today_heat_runtime"
    false usageEntry usageGetter [] rfl rfl rfl
  exact ⟨rfl, rfl, rfl, h.1, h.2.1⟩

/-- The whole cache-hit arm of getCore leaves the cache unchanged and
requests nothing, whatever the extraction does. -/
theorem getCore_cache_hit_frame
    (api : List (String × APIEntry)) (cache : List (String × CacheEntry))
    (expiry now : Nat) (fetch : String → Json) (key : String)
    (entry : APIEntry) (w : Getter × CacheEntry)
    (hapi : assocFind api key = some entry)
    (hsel : selectNewest now expiry cache entry.getters none = some w) :
    (getCore api cache expiry now fetch key).cache = cache
    ∧ (getCore api cache expiry now fetch key).requested = [] := by
  cases hlast : entry.getters.getLast? with
  | none => constructor <;> simp [getCore, hapi, hsel, hlast]
  | some lastG =>
    cases hidx : indexJson w.2.data w.1.jsonKey with
    | error e => constructor <;> simp [getCore, hapi, hsel, hlast, hidx]
    | ok r0 =>
      cases hdesc : descend r0 (splitSlash lastG.jsonKey) with
      | error e => constructor <;> simp [getCore, hapi, hsel, hlast, hidx, hdesc]
      | ok r => constructor <;> simp [getCore, hapi, hsel, hlast, hidx, hdesc]

/-- C10: when the resolver finds a valid cached candidate, the cache is
returned exactly as it was and no live request is made; and conversely the
only way a call changes the cache is the live-fetch branch storing the
newly decoded payload under the first getter location. -/
theorem c10_cache_hit_frame :
    (∀ (api : List (String × APIEntry)) (cache : List (String × CacheEntry))
        (expiry now : Nat) (fetch : String → Json) (key : String) (raw : Bool)
        (entry : APIEntry) (w : Getter × CacheEntry),
        assocFind api key = some entry →
        selectNewest now expiry cache entry.getters none = some w →
        (TStat_get api cache expiry now fetch key raw).cache = cache
        ∧ (TStat_get api cache expiry now fetch key raw).requested = [])
    ∧ (∀ (api : List (String × APIEntry)) (cache : List (String × CacheEntry))
        (expiry now : Nat) (fetch : String → Json) (key : String) (raw : Bool),
        (TStat_get api cache expiry now fetch key raw).cache ≠ cache →
        ∃ entry g0 rest, assocFind api key = some entry
          ∧ entry.getters = g0 :: rest
          ∧ selectNewest now expiry cache entry.getters none = none
          ∧ (TStat_get api cache expiry now fetch key raw).cache
              = assocPut cache g0.location ⟨g0.location, fetch g0.location, now⟩) := by
  constructor
  · intro api cache expiry now fetch key raw entry w hapi hsel
    have h := getCore_cache_hit_frame api cache expiry now fetch key entry w hapi hsel
    exact ⟨h.1, h.2⟩
  · intro api cache expiry now fetch key raw hne
    cases hapi : assocFind api key with
    | none => exact absurd (by simp [TStat_get, getCore, hapi]) hne
    | some entry =>
      cases hsel : selectNewest now expiry cache entry.getters none with
      | some w =>
        exact absurd
          (getCore_cache_hit_frame api cache expiry now fetch key entry w hapi hsel).1
          hne
      | none =>
        cases hgets : entry.getters with
        | nil =>
          rw [hgets] at hsel
          exact absurd (by simp [TStat_get, getCore, hapi, hsel, hgets]) hne
        | cons g0 rest =>
          have hsel2 : selectNewest now expiry cache (g0 :: rest) none = none := by
            rw [hgets] at hsel
            exact hsel
          refine ⟨entry, g0, rest, ?_, ?_, ?_, ?_⟩
          · rfl
          · exact hgets
          · exact hsel
          · cases hdesc : descend (fetch g0.location) (splitSlash g0.jsonKey) with
            | error e => simp [TStat_get, getCore, hapi, hsel2, hgets, hdesc]
            | ok v => simp [TStat_get, getCore, hapi, hsel2, hgets, hdesc]

/-- Witness for C10: the fmode call against a valid cached /tstat entry
leaves the cache exactly as it was and fetches nothing. -/
theorem c10_witness :
    (TStat_get sharedApi c1Cache 5 0 sharedFetch "fmode" false).cache = c1Cache
    ∧ (TStat_get sharedApi c1Cache 5 0 sharedFetch "fmode" false).requested = [] :=
  c10_cache_hit_frame.1 sharedApi c1Cache 5 0 sharedFetch "fmode" false
    ⟨[fmodeGetter], some fmodeVM⟩ (fmodeGetter, c1Entry) rfl rfl

/-- Whenever getCore yields an extracted value, the valueMap it pairs with
it is the valueMap of the API entry of the requested key. -/
theorem getCore_valueMap_of_entry
    (api : List (String × APIEntry)) (cache : List (String × CacheEntry))
    (expiry now : Nat) (fetch : String → Json) (key : String)
    (r : Json) (vm : Option (List (Json × Json)))
    (hext : (getCore api cache expiry now fetch key).extracted = .ok (some (r, vm))) :
    ∃ entry, assocFind api key = some entry ∧ vm = entry.valueMap := by
  cases hapi : assocFind api key with
  | none => simp [getCore, hapi] at hext
  | some entry =>
    refine ⟨entry, rfl, ?_⟩
    cases hsel : selectNewest now expiry cache entry.getters none with
    | some w =>
      cases hlast : entry.getters.getLast? with
      | none => simp [getCore, hapi, hsel, hlast] at hext
      | some lastG =>
        cases hidx : indexJson w.2.data w.1.jsonKey with
        | error e => simp [getCore, hapi, hsel, hlast, hidx] at hext
        | ok r0 =>
          cases hdesc : descend r0 (splitSlash lastG.jsonKey) with
          | error e => simp [getCore, hapi, hsel, hlast, hidx, hdesc] at hext
          | ok rr =>
            simp [getCore, hapi, hsel, hlast, hidx, hdesc] at hext
            exact hext.2.symm
    | none =>
      cases hgets : entry.getters with
      | nil =>
        rw [hgets] at hsel
        simp [getCore, hapi, hsel, hgets] at hext
      | cons g0 rest =>
        have hsel2 : selectNewest now expiry cache (g0 :: rest) none = none := by
          rw [hgets] at hsel
          exact hsel
        cases hdesc : descend (fetch g0.location) (splitSlash g0.jsonKey) with
        | error e => simp [getCore, hapi, hsel2, hgets, hdesc] at hext
        | ok rr =>
          simp [getCore, hapi, hsel2, hgets, hdesc] at hext
          exact hext.2.symm

/-- C7: the remapping stage of lines 154-165 returns the extracted value
unchanged when raw is requested; and a full call with raw=false returns
exactly what the raw=true call returned whenever the entry has no valueMap
or the extracted value has no binding in it — a remap miss is the
swallowed KeyError of line 163, not an error. -/
theorem c7_raw_bypass_and_remap_fallback :
    (∀ (vm : Option (List (Json × Json))) (r : Json), remap vm true r = r)
    ∧ (∀ (api : List (String × APIEntry)) (cache : List (String × CacheEntry))
        (expiry now : Nat) (fetch : String → Json) (key : String)
        (v : Json) (entry : APIEntry),
        assocFind api key = some entry →
        (TStat_get api cache expiry now fetch key true).result = .ok (some v) →
        (entry.valueMap = none
          ∨ ∃ m, entry.valueMap = some m ∧ lookupMap m v = none) →
        (TStat_get api cache expiry now fetch key false).result = .ok (some v)) := by
  constructor
  · intro vm r
    simp [remap]
  · intro api cache expiry now fetch key v entry hapi htrue hmiss
    cases hext : (getCore api cache expiry now fetch key).extracted with
    | error e => simp [TStat_get, hext] at htrue
    | ok o =>
      cases o with
      | none => simp [TStat_get, hext] at htrue
      | some p =>
        obtain ⟨r, vm⟩ := p
        have hv : remap vm true r = v := by simpa [TStat_get, hext] using htrue
        have hrv : r = v := by
          rw [← hv]
          simp [remap]
        obtain ⟨entry2, hapi2, hvm⟩ :=
          getCore_valueMap_of_entry api cache expiry now fetch key r vm hext
        have hvm2 : vm = entry.valueMap := by
          rw [hvm]
          rw [hapi] at hapi2
          rw [Option.some.inj hapi2]
        rcases hmiss with hnone | ⟨m, hm, hlook⟩
        · have hvn : vm = none := hvm2.trans hnone
          simp [TStat_get, hext, remap, hvn, hrv]
        · have hvs : vm = some m := hvm2.trans hm
          simp [TStat_get, hext, remap, hvs, hrv, hlook]

/-- Witness for C7: fmode code 7 is absent from fmodeVM, so both the raw
and the mapped call return 7. -/
theorem c7_witness :
    (TStat_get sharedApi [] 5 0 missFetch "fmode" true).result = .ok (some (.num 7))
    ∧ (TStat_get sharedApi [] 5 0 missFetch "fmode" false).result
        = .ok (some (.num 7)) := by
  refine ⟨rfl, ?_⟩
  exact c7_raw_bypass_and_remap_fallback.2 sharedApi [] 5 0 missFetch "fmode"
    (.num 7) ⟨[fmodeGetter], some fmodeVM⟩ rfl rfl (Or.inr ⟨fmodeVM, rfl, rfl⟩)

/-- C8: the subscript of lines 149-150 fails exactly when the current
value is not an object containing the next sub-key; the descent proceeds
one sub-key at a time and propagates the failure; a descent failure in the
live-fetch branch is surfaced as the result of the whole call; and on the
nested path today/heat_runtime the descent extracts 42 from a payload
carrying it and fails with pathNotFound when the today object is empty. -/
theorem c8_path_descent :
    (∀ (j : Json) (k : String),
        indexJson j k = .error .pathNotFound
          ↔ (match j with
              | .obj fields => assocFind fields k = none
              | _ => True))
    ∧ (∀ (j v : Json) (k : String) (ks : List String),
        indexJson j k = .ok v → descend j (k :: ks) = descend v ks)
    ∧ (∀ (j : Json) (k : String) (ks : List String) (e : TErr),
        indexJson j k = .error e → descend j (k :: ks) = .error e)
    ∧ (∀ (api : List (String × APIEntry)) (cache : List (String × CacheEntry))
        (expiry now : Nat) (fetch : String → Json) (key : String) (raw : Bool)
        (entry : APIEntry) (g0 : Getter) (rest : List Getter) (e : TErr),
        assocFind api key = some entry → entry.getters = g0 :: rest →
        selectNewest now expiry cache entry.getters none = none →
        descend (fetch g0.location) (splitSlash g0.jsonKey) = .error e →
        (TStat_get api cache expiry now fetch key raw).result = .error e)
    ∧ descend runtimePayload (splitSlash "today/heat_runtime") = .ok (.num 42)
    ∧ descend emptyToday (splitSlash "today/heat_runtime")
        = .error .pathNotFound := by
  refine ⟨?_, ?_, ?_, ?_, rfl, rfl⟩
  · intro j k
    cases j with
    | null => simp [indexJson]
    | bool b => simp [indexJson]
    | num n => simp [indexJson]
    | str s => simp [indexJson]
    | arr es => simp [indexJson]
    | obj fields => cases hfind : assocFind fields k <;> simp [indexJson, hfind]
  · intro j v k ks h
    simp [descend, h]
  · intro j k ks e h
    simp [descend, h]
  · intro api cache expiry now fetch key raw entry g0 rest e hapi hget hsel hdesc
    rw [hget] at hsel
    simp [TStat_get, getCore, hapi, hget, hsel, hdesc]

/-- Witness for C8: against a datalog payload whose today object is empty,
the daily heat runtime call surfaces pathNotFound. -/
theorem c8_witness :
    descend (emptyFetch "/tstat/datalog") (splitSlash "today/heat_runtime")
      = .error .pathNotFound
    ∧ (TStat_get usageApi [] 5 0 emptyFetch "today_heat_runtime" true).result
      = .error .pathNotFound :=
  ⟨rfl, c8_path_descent.2.2.2.1 usageApi [] 5 0 emptyFetch "today_heat_runtime"
    true usageEntry usageGetter [] .pathNotFound rfl rfl rfl rfl⟩

end RT
